import Mathlib

set_option maxRecDepth 40000

/- Shallow embedding of src/redfin_scraping.py.

   Numbers: Python floats are modelled as exact rationals; round(x, 2) is
   modelled as exact round-half-to-even on the hundredths grid.
   Dates: Python datetime values are modelled by their proleptic Gregorian
   day number (day 0 = 0000-03-01); timedelta(days = n) subtracts n from that
   number, and strftime("%Y-%m") is dateKey below.
   Effects: selenium calls are modelled by oracles recording whether each
   wait or attempt succeeds and what text the located price element carries;
   a raised exception is an Except.error value. -/

/-- Civil (proleptic Gregorian) date of day number `z`, with day 0 = 0000-03-01,
as (year, month, day): the date arithmetic Python datetime performs when the
scraper computes current_date - timedelta(days=30*i). -/
def civilFromDays (z : Nat) : Nat × Nat × Nat :=
  let era := z / 146097
  let doe := z % 146097
  let yoe := (doe - doe / 1460 + doe / 36524 - doe / 146096) / 365
  let y := yoe + era * 400
  let doy := doe - (365 * yoe + yoe / 4 - yoe / 100)
  let mp := (5 * doy + 2) / 153
  let d := doy - (153 * mp + 2) / 5 + 1
  let m := if mp < 10 then mp + 3 else mp - 9
  (if m ≤ 2 then y + 1 else y, m, d)

/-- Day number of a civil date (valid from 0000-03-01 on); inverse of
`civilFromDays`, used only to name concrete anchor dates. -/
def daysFromCivil (y m d : Nat) : Nat :=
  let y2 := if m ≤ 2 then y - 1 else y
  let era := y2 / 400
  let yoe := y2 % 400
  let mp := if m > 2 then m - 3 else m + 9
  let doy := (153 * mp + 2) / 5 + d - 1
  let doe := yoe * 365 + yoe / 4 - yoe / 100 + doy
  era * 146097 + doe

/-- Year and month of a day number. -/
def monthOf (z : Nat) : Nat × Nat := ((civilFromDays z).1, (civilFromDays z).2.1)

/-- Character of the decimal digit n % 10. -/
def digitChar (n : Nat) : Char := Char.ofNat (48 + n % 10)

/-- Decimal digit characters of the second argument, most significant first,
with explicit fuel (any fuel above the argument suffices). -/
def natCharsAux : Nat → Nat → List Char
  | 0, _ => []
  | fuel + 1, n =>
      if n < 10 then [digitChar n]
      else natCharsAux fuel (n / 10) ++ [digitChar (n % 10)]

/-- Decimal digit characters of `n`, most significant first. -/
def natChars (n : Nat) : List Char := natCharsAux (n + 1) n

/-- Left-pad a digit list with zeros to width `w`, as strftime does for the
%Y and %m fields. -/
def padTo (w : Nat) (l : List Char) : List Char :=
  List.replicate (w - l.length) '0' ++ l

/-- Model of strftime("%Y-%m"): zero-padded 4-digit year, a dash, zero-padded
2-digit month. -/
def fmtYM (ym : Nat × Nat) : String :=
  String.mk (padTo 4 (natChars ym.1) ++ '-' :: padTo 2 (natChars ym.2))

/-- The date_key the generator stores under for a given day number (line 127). -/
def dateKey (z : Nat) : String := fmtYM (monthOf z)

/-- Whether a string consists of four digits, a dash, and two digits: the
YYYY-MM pattern of the spec. -/
def matchesYYYYMM (s : String) : Bool :=
  match s.toList with
  | [a, b, c, d, e, f, g] =>
      a.isDigit && b.isDigit && c.isDigit && d.isDigit && (e == '-') &&
      f.isDigit && g.isDigit
  | _ => false

/-- Round to the nearest integer with ties to even, the rounding Python's
round builtin performs. -/
def roundHalfEven (q : ℚ) : ℤ :=
  let f := ⌊q⌋
  let r := q - f
  if r < 1 / 2 then f
  else if 1 / 2 < r then f + 1
  else if f % 2 = 0 then f else f + 1

/-- Model of round(x, 2) at line 130. -/
def roundTo2 (q : ℚ) : ℚ := (roundHalfEven (q * 100) : ℚ) / 100

/-- Python dict assignment d[k] = v on an insertion-ordered association list:
an existing key keeps its position and receives the new value, a new key is
appended at the end. -/
def dictInsert (d : List (String × ℚ)) (k : String) (v : ℚ) : List (String × ℚ) :=
  if d.any (fun p => p.1 == k) then d.map (fun p => if p.1 == k then (k, v) else p)
  else d ++ [(k, v)]

/-- Python dict lookup d[k]. -/
def dictLookup (d : List (String × ℚ)) (k : String) : Option ℚ :=
  (d.find? (fun p => p.1 == k)).map Prod.snd

/-- Uncurried `dictInsert`, to state the generator as a fold over its writes. -/
def dictInsertPair (d : List (String × ℚ)) (kv : String × ℚ) : List (String × ℚ) :=
  dictInsert d kv.1 kv.2

/-- Python str.strip(): drop whitespace from both ends. -/
def pyStrip (l : List Char) : List Char :=
  ((l.dropWhile Char.isWhitespace).reverse.dropWhile Char.isWhitespace).reverse

/-- Lines 112 and 116: the element text stripped, then every '$' and every ','
removed (Python str.replace removes all occurrences). -/
def cleanedPrice (text : String) : List Char :=
  ((pyStrip text.toList).filter (fun c => c != '$')).filter (fun c => c != ',')

/-- Numeric value of a list of decimal digit characters. -/
def digitsToNat (l : List Char) : Nat :=
  l.foldl (fun a c => a * 10 + (c.toNat - 48)) 0

/-- Syntactic part of Python's float builtin: optional sign, then digits with
at most one decimal point and at least one digit. Returns (negative?, integer
digits, fraction digits), or none when the text is not of that shape, in which
case float raises ValueError. Exponents, inf/nan, and digit underscores, which
no input of this program produces, are not modelled. -/
def pyFloatParse (l : List Char) : Option (Bool × List Char × List Char) :=
  let t := pyStrip l
  let sp : Bool × List Char :=
    match t with
    | '-' :: r => (true, r)
    | '+' :: r => (false, r)
    | _ => (false, t)
  match sp.2.splitOn '.' with
  | [ip] => if ip.all Char.isDigit && !ip.isEmpty then some (sp.1, ip, []) else none
  | [ip, fp] =>
      if ip.all Char.isDigit && fp.all Char.isDigit && !(ip.isEmpty && fp.isEmpty) then
        some (sp.1, ip, fp)
      else none
  | _ => none

/-- Exact rational value of a parsed decimal literal. -/
def ratOfParts (p : Bool × List Char × List Char) : ℚ :=
  (if p.1 then -1 else 1) *
    ((digitsToNat p.2.1 : ℚ) + (digitsToNat p.2.2 : ℚ) / 10 ^ p.2.2.length)

/-- Model of Python float(text); none models the ValueError raise. -/
def pyFloat (l : List Char) : Option ℚ := (pyFloatParse l).map ratOfParts

/-- Lines 112-120: strip the element text, drop '$' and ',', and if the result
contains 'K' anywhere, drop every 'K' and multiply the parsed number by 1000;
otherwise parse directly. -/
def parsePriceText (text : String) : Option ℚ :=
  let price_value := cleanedPrice text
  if price_value.contains 'K' then
    (pyFloat (price_value.filter (fun c => c != 'K'))).map (fun x => x * 1000)
  else
    pyFloat price_value

/-- Retry loop of navigate_to_city with `att i` telling whether attempt number
`i` reaches the housing-market page; false covers a timed-out wait and any
other exception, both caught by the except clause at line 89. The second
component counts attempts performed. -/
def navigate_to_city_loop (att : Nat → Bool) : Nat → Nat → Bool × Nat
  | 0, tried => (false, tried)
  | n + 1, tried =>
      if att tried then (true, tried + 1) else navigate_to_city_loop att n (tried + 1)

/-- Lines 63-95, RedfinScraper.navigate_to_city: up to 3 attempts, the first
success returns True, exhaustion falls through to return False. -/
def navigate_to_city (att : Nat → Bool) : Bool × Nat :=
  navigate_to_city_loop att 3 0

/-- Loop of lines 126-130 with `fuel` iterations left and `i` the current
index: store round(current_price * (1 + variation), 2) under the strftime key
of current_date minus 30*i days. The draw random.uniform(-0.02, 0.02) of
iteration i is the oracle value `rand i`. -/
def monthly_data_loop (current_price : ℚ) (anchor : Nat) (rand : Nat → ℚ) :
    Nat → Nat → List (String × ℚ) → List (String × ℚ)
  | 0, _, d => d
  | fuel + 1, i, d =>
      monthly_data_loop current_price anchor rand fuel (i + 1)
        (dictInsert d (dateKey (anchor - 30 * i)) (roundTo2 (current_price * (1 + rand i))))

/-- Lines 122-132: the synthetic 36-month series generated from one anchor
price and the anchor day number. -/
def monthly_data (current_price : ℚ) (anchor : Nat) (rand : Nat → ℚ) :
    List (String × ℚ) :=
  monthly_data_loop current_price anchor rand 36 0 []

/-- Write list of the generator exactly as the spec's §4.3 words it: for i in
0..35, the candidate date anchor minus 30*i days formatted as YYYY-MM, paired
with the perturbed price rounded to 2 decimals. -/
def expandWrites (P : ℚ) (T : Nat) (r : Nat → ℚ) : List (String × ℚ) :=
  (List.range 36).map (fun i => (dateKey (T - 30 * i), roundTo2 (P * (1 + r i))))

/-- Exceptions get_median_sale_prices can raise: the navigation ValueError of
line 101, the selenium timeout of the 20-unit wait, and the ValueError of a
failed float conversion (carrying the offending cleaned text). -/
inductive ScrapeExc where
  | valueError (msg : String)
  | timeoutExc
  | floatValueError (txt : List Char)
  deriving DecidableEq

/-- Oracles for one run: navigation attempt outcomes and the text of the price
element (none when the wait at lines 103-110 times out). -/
structure PageEnv where
  navAttempts : Nat → Bool
  priceText : Option String

/-- Lines 97-141, RedfinScraper.get_median_sale_prices. Both except clauses
log and re-raise, so every failure propagates to the caller; the model returns
it as an Except.error. -/
def get_median_sale_prices (env : PageEnv) (state city : String) (anchor : Nat)
    (rand : Nat → ℚ) : Except ScrapeExc (List (String × ℚ)) :=
  if (navigate_to_city env.navAttempts).1 = false then
    .error (.valueError
      ("Could not navigate to " ++ city ++ ", " ++ state ++ " housing market page."))
  else
    match env.priceText with
    | none => .error .timeoutExc
    | some text =>
        match parsePriceText text with
        | none => .error (.floatValueError (cleanedPrice text))
        | some current_price => .ok (monthly_data current_price anchor rand)

/-- Observable effects of main, lines 153-180: the error line printed by the
except clause, and the file write (path, mapping, json indent), which only the
success path performs. -/
structure MainResult where
  errorLine : Option String
  fileWrite : Option (String × List (String × ℚ) × Nat)
  deriving DecidableEq

/-- Message text of an exception as str(e) in main's except clause renders it. -/
def excMessage : ScrapeExc → String
  | .valueError m => m
  | .timeoutExc => "TimeoutException"
  | .floatValueError t => "could not convert string to float: " ++ String.mk t

/-- Lines 156-173 of main after a successful setup: run the scrape; on success
print the series and write median_prices.json with indent 2; on any raised
error print the single error line and write nothing. -/
def main_run (env : PageEnv) (state city : String) (anchor : Nat)
    (rand : Nat → ℚ) : MainResult :=
  match get_median_sale_prices env state city anchor rand with
  | .ok prices => { errorLine := none, fileWrite := some ("median_prices.json", prices, 2) }
  | .error e => { errorLine := some ("Error in main: " ++ excMessage e), fileWrite := none }

/-- How the body of main can end after a successful setup. -/
inductive RunOutcome where
  | success
  | navFailure
  | extractFailure
  | genFailure
  deriving DecidableEq

/-- Driver handle of the scraper plus the number of driver.quit() invocations
so far. -/
structure ScraperState where
  driver : Option Unit
  quitCalls : Nat
  deriving DecidableEq

/-- One driver.quit() invocation. -/
def driverQuit (s : ScraperState) : ScraperState :=
  { s with quitCalls := s.quitCalls + 1 }

/-- RedfinScraper.__del__, lines 143-150: quit when driver is not None; the
driver field is never cleared; errors are logged and suppressed. -/
def scraperDel (s : ScraperState) : ScraperState :=
  match s.driver with
  | some _ => driverQuit s
  | none => s

/-- The finally block of main, lines 174-180: quit when scraper.driver is
truthy; errors suppressed. -/
def mainFinallyBlock (s : ScraperState) : ScraperState :=
  match s.driver with
  | some _ => driverQuit s
  | none => s

/-- The try body and except clause of main, lines 156-173: on every outcome
they neither invoke quit nor assign the driver attribute. -/
def mainTryBody (o : RunOutcome) (s : ScraperState) : ScraperState :=
  match o with
  | _ => s

/-- Whole-process quit count of a run whose setup succeeded: setup stores the
driver handle, the body runs to its outcome, the finally block runs whether or
not the body raised, and the destructor runs when the scraper object is
finalized at process exit. -/
def processQuitCalls (o : RunOutcome) : Nat :=
  (scraperDel (mainFinallyBlock (mainTryBody o { driver := some (), quitCalls := 0 }))).quitCalls

/-- Day number of 2024-03-31, an anchor whose steps 0 and 1 both fall in March
(the 31st minus 30 days is March 1). -/
def anchorDup : Nat := daysFromCivil 2024 3 31

/-- Day number of 2023-06-15, an anchor whose 36 backward steps land in 36
distinct months. -/
def anchorMid : Nat := daysFromCivil 2023 6 15

/-- Random oracle that always returns 0, the stub of the spec's cardinality
test. -/
def zeroRand : Nat → ℚ := fun _ => 0

/-- Random oracle that always returns 1/50 = 0.02, the right endpoint of the
draw interval. -/
def fiftiethRand : Nat → ℚ := fun _ => 1 / 50

/-- Random oracle returning 1/100 on draw 1 and 0 elsewhere, separating
iteration 1 from iteration 0. -/
def dupRand : Nat → ℚ := fun i => if i = 1 then 1 / 100 else 0

/-- Attempt oracle of a session whose awaited condition always fails. -/
def allFail : Nat → Bool := fun _ => false

/-- Environment whose navigation always fails. -/
def envNavFail : PageEnv := { navAttempts := allFail, priceText := some "$450K" }

/-- Members of a dict after an assignment are prior members or the assigned
pair. -/
theorem mem_dictInsert {d : List (String × ℚ)} {k : String} {v : ℚ} {kv : String × ℚ}
    (h : kv ∈ dictInsert d k v) : kv ∈ d ∨ kv = (k, v) := by
  unfold dictInsert at h
  split at h
  · rcases List.mem_map.1 h with ⟨p, hp, he⟩
    by_cases hpk : (p.1 == k) = true
    · rw [if_pos hpk] at he
      right
      exact he.symm
    · rw [if_neg hpk] at he
      left
      exact he ▸ hp
  · rcases List.mem_append.1 h with h1 | h1
    · left
      exact h1
    · right
      simpa using h1

/-- Assignment leaves the key sequence unchanged when the key is present and
appends it when absent. -/
theorem keys_dictInsert (d : List (String × ℚ)) (k : String) (v : ℚ) :
    (dictInsert d k v).map Prod.fst =
      if d.any (fun p => p.1 == k) then d.map Prod.fst else d.map Prod.fst ++ [k] := by
  unfold dictInsert
  split
  case isTrue hany =>
    rw [List.map_map]
    apply List.map_congr_left
    intro p _
    by_cases hpk : (p.1 == k) = true
    · simp only [Function.comp_apply, if_pos hpk]
      exact (eq_of_beq hpk).symm
    · simp only [Function.comp_apply, if_neg hpk]
  case isFalse hany =>
    simp

/-- Assignment grows a dict by at most one entry. -/
theorem length_dictInsert (d : List (String × ℚ)) (k : String) (v : ℚ) :
    (dictInsert d k v).length ≤ d.length + 1 := by
  have h := congrArg List.length (keys_dictInsert d k v)
  simp only [List.length_map] at h
  split at h <;> simp_all

/-- Assignment preserves distinctness of the keys. -/
theorem nodupKeys_dictInsert {d : List (String × ℚ)} (k : String) (v : ℚ)
    (h : (d.map Prod.fst).Nodup) : ((dictInsert d k v).map Prod.fst).Nodup := by
  rw [keys_dictInsert]
  split
  case isTrue => exact h
  case isFalse hany =>
    have hk : k ∉ d.map Prod.fst := by
      intro hmem
      rcases List.mem_map.1 hmem with ⟨p, hp, he⟩
      exact hany (List.any_eq_true.2 ⟨p, hp, beq_iff_eq.2 he⟩)
    simp [List.nodup_append, h, hk]

/-- Dict lookup after an assignment: the assigned key yields the new value,
any other key is unaffected. -/
theorem find_map_update (d : List (String × ℚ)) (k k2 : String) (v : ℚ) :
    (d.map (fun p => if p.1 == k then (k, v) else p)).find? (fun p => p.1 == k2) =
      if k2 = k then (d.find? (fun p => p.1 == k)).map (fun _ => (k, v))
      else d.find? (fun p => p.1 == k2) := by
  rw [List.find?_map]
  by_cases hk2 : k2 = k
  · subst hk2
    have hp : ((fun p => p.1 == k2) ∘ fun p : String × ℚ => if p.1 == k2 then (k2, v) else p) =
        fun p : String × ℚ => p.1 == k2 := by
      funext p
      by_cases h : (p.1 == k2) = true
      · simp [Function.comp, h]
      · simp [Function.comp, h]
    rw [if_pos rfl, hp]
    cases hf : d.find? (fun p => p.1 == k2) with
    | none => simp
    | some q =>
      have hq : (q.1 == k2) = true := by simpa using List.find?_some hf
      simp [Option.map, hq]
  · rw [if_neg hk2]
    have hp : ((fun p => p.1 == k2) ∘ fun p : String × ℚ => if p.1 == k then (k, v) else p) =
        fun p : String × ℚ => p.1 == k2 := by
      funext p
      by_cases h : (p.1 == k) = true
      · have h1 : (p.1 == k2) = false := by
          simp only [beq_eq_false_iff_ne, ne_eq]
          intro he
          exact hk2 (by rw [← he, eq_of_beq h])
        have h2 : (k == k2) = false := by
          simp only [beq_eq_false_iff_ne, ne_eq]
          exact fun he => hk2 he.symm
        simp [Function.comp, h, h1, h2]
      · simp [Function.comp, h]
    rw [hp]
    cases hf : d.find? (fun p => p.1 == k2) with
    | none => simp
    | some q =>
      have hq : (q.1 == k2) = true := by simpa using List.find?_some hf
      have hqk : (q.1 == k) = false := by
        simp only [beq_eq_false_iff_ne, ne_eq]
        intro he
        exact hk2 (by rw [← eq_of_beq hq, he])
      simp [Option.map, hqk]

/-- Search in a concatenation hits the left part first. -/
theorem find_append (l1 l2 : List (String × ℚ)) (p : String × ℚ → Bool) :
    (l1 ++ l2).find? p =
      match l1.find? p with
      | some x => some x
      | none => l2.find? p := by
  induction l1 with
  | nil => simp
  | cons a t ih =>
    by_cases ha : p a = true
    · rw [List.cons_append, List.find?_cons_of_pos _ ha, List.find?_cons_of_pos _ ha]
    · rw [List.cons_append, List.find?_cons_of_neg _ (by simp_all),
        List.find?_cons_of_neg _ (by simp_all), ih]

/-- Lookup after a Python dict assignment. -/
theorem dictLookup_dictInsert (d : List (String × ℚ)) (k k2 : String) (v : ℚ) :
    dictLookup (dictInsert d k v) k2 = if k2 = k then some v else dictLookup d k2 := by
  unfold dictInsert dictLookup
  split
  case isTrue hany =>
    rw [find_map_update]
    by_cases hk2 : k2 = k
    · subst hk2
      rw [if_pos rfl, if_pos rfl]
      rcases List.any_eq_true.1 hany with ⟨p, hp, hpk⟩
      cases hf : d.find? (fun q => q.1 == k2) with
      | none => exact absurd hpk (List.find?_eq_none.1 hf p hp)
      | some q => simp [hf]
    · rw [if_neg hk2, if_neg hk2]
  case isFalse hany =>
    rw [find_append]
    have hnone : ∀ x ∈ d, ¬ ((x.1 == k) = true) := by
      intro x hx hpx
      exact hany (List.any_eq_true.2 ⟨x, hx, hpx⟩)
    by_cases hk2 : k2 = k
    · subst hk2
      rw [if_pos rfl]
      rw [List.find?_eq_none.2 hnone]
      simp [List.find?]
    · rw [if_neg hk2]
      cases hf : d.find? (fun q => q.1 == k2) with
      | some q => simp [hf]
      | none =>
        have hne : (k == k2) = false := by
          simp only [beq_eq_false_iff_ne, ne_eq]
          exact fun h => hk2 h.symm
        simp [hf, List.find?, hne]

/-- Members of a fold of dict assignments come from the start dict or from the
write list. -/
theorem mem_foldl_dictInsert {ws : List (String × ℚ)} :
    ∀ {d kv}, kv ∈ ws.foldl dictInsertPair d → kv ∈ d ∨ kv ∈ ws := by
  induction ws with
  | nil => intro d kv h; exact Or.inl h
  | cons w t ih =>
    intro d kv h
    rw [List.foldl_cons] at h
    rcases ih h with h1 | h1
    · rcases mem_dictInsert h1 with h2 | h2
      · exact Or.inl h2
      · right
        rw [h2, Prod.mk.eta]
        exact List.mem_cons_self w t
    · right
      exact List.mem_cons_of_mem _ h1

/-- Folding writes grows the dict by at most the number of writes. -/
theorem length_foldl_dictInsert (ws : List (String × ℚ)) :
    ∀ d, (ws.foldl dictInsertPair d).length ≤ d.length + ws.length := by
  induction ws with
  | nil => intro d; simp
  | cons w t ih =>
    intro d
    rw [List.foldl_cons, List.length_cons]
    have h1 := ih (dictInsertPair d w)
    have h2 : (dictInsertPair d w).length ≤ d.length + 1 := length_dictInsert d w.1 w.2
    omega

/-- Folding writes preserves distinctness of the keys. -/
theorem nodupKeys_foldl_dictInsert (ws : List (String × ℚ)) :
    ∀ d, (d.map Prod.fst).Nodup → ((ws.foldl dictInsertPair d).map Prod.fst).Nodup := by
  induction ws with
  | nil => intro d h; exact h
  | cons w t ih =>
    intro d h
    rw [List.foldl_cons]
    exact ih _ (nodupKeys_dictInsert w.1 w.2 h)

/-- A key present in the dict stays present through an assignment. -/
theorem keyPresent_dictInsert {d : List (String × ℚ)} {k2 : String}
    (h : ∃ kv ∈ d, kv.1 = k2) (k : String) (v : ℚ) :
    ∃ kv ∈ dictInsert d k v, kv.1 = k2 := by
  rcases h with ⟨kv, hkv, hk⟩
  unfold dictInsert
  split
  · refine ⟨if kv.1 == k then (k, v) else kv, List.mem_map_of_mem _ hkv, ?_⟩
    by_cases hb : (kv.1 == k) = true
    · rw [if_pos hb]
      show k = k2
      rw [← eq_of_beq hb]
      exact hk
    · rw [if_neg hb]
      exact hk
  · exact ⟨kv, List.mem_append_left _ hkv, hk⟩

/-- A key present stays present through a fold of assignments. -/
theorem keyPresent_foldl {k2 : String} (ws : List (String × ℚ)) :
    ∀ d, (∃ kv ∈ d, kv.1 = k2) → ∃ kv ∈ ws.foldl dictInsertPair d, kv.1 = k2 := by
  induction ws with
  | nil => intro d h; exact h
  | cons w t ih =>
    intro d h
    rw [List.foldl_cons]
    exact ih _ (keyPresent_dictInsert h w.1 w.2)

/-- The assigned key is present right after an assignment. -/
theorem insertedKey_present (d : List (String × ℚ)) (k : String) (v : ℚ) :
    ∃ kv ∈ dictInsert d k v, kv.1 = k := by
  unfold dictInsert
  split
  case isTrue hany =>
    rcases List.any_eq_true.1 hany with ⟨p, hp, hpk⟩
    exact ⟨(k, v), List.mem_map.2 ⟨p, hp, by rw [if_pos hpk]⟩, rfl⟩
  case isFalse =>
    exact ⟨(k, v), List.mem_append_right _ (by simp), rfl⟩

/-- Every written key is present after the fold of the writes. -/
theorem writtenKey_present (ws : List (String × ℚ)) :
    ∀ d, ∀ w ∈ ws, ∃ kv ∈ ws.foldl dictInsertPair d, kv.1 = w.1 := by
  induction ws with
  | nil => intro d w hw; cases hw
  | cons x t ih =>
    intro d w hw
    rw [List.foldl_cons]
    rcases List.mem_cons.1 hw with h | h
    · subst h
      exact keyPresent_foldl t _ (insertedKey_present d w.1 w.2)
    · exact ih _ w h

/-- Lookup in a fold of assignments: the last write to the key wins, and a key
never written keeps its prior binding. -/
theorem dictLookup_foldl (ws : List (String × ℚ)) (k : String) :
    ∀ d, dictLookup (ws.foldl dictInsertPair d) k =
      match ws.reverse.find? (fun p => p.1 == k) with
      | some p => some p.2
      | none => dictLookup d k := by
  induction ws with
  | nil => intro d; simp
  | cons w t ih =>
    intro d
    rw [List.foldl_cons, ih, List.reverse_cons, find_append]
    cases hf : t.reverse.find? (fun p => p.1 == k) with
    | some q => simp
    | none =>
      show dictLookup (dictInsert d w.1 w.2) k = _
      rw [dictLookup_dictInsert]
      by_cases hk : k = w.1
      · have hb : (w.1 == k) = true := beq_iff_eq.2 hk.symm
        simp [List.find?, hb, hk]
      · have hb : (w.1 == k) = false := by
          simp only [beq_eq_false_iff_ne, ne_eq]
          exact fun h => hk h.symm
        simp [List.find?, hb, hk]

/-- In the reversed write sequence of an indexed family, the first hit for a
key is the write with the largest index, provided no later index writes it. -/
theorem find_last_write (g : Nat → String × ℚ) (k : String) :
    ∀ n i, i < n → (g i).1 = k → (∀ j, j < n → i < j → (g j).1 ≠ k) →
      ((List.range n).map g).reverse.find? (fun p => p.1 == k) = some (g i) := by
  intro n
  induction n with
  | zero => intro i hi _ _; omega
  | succ m ih =>
    intro i hi hk hlast
    rw [List.range_succ, List.map_append, List.reverse_append]
    simp only [List.map_cons, List.map_nil, List.reverse_cons, List.reverse_nil,
      List.nil_append, List.cons_append, List.singleton_append]
    by_cases him : i = m
    · subst him
      have hb : ((g i).1 == k) = true := beq_iff_eq.2 hk
      simp [List.find?, hb]
    · have hne : ((g m).1 == k) = false := by
        simp only [beq_eq_false_iff_ne, ne_eq]
        exact hlast m (by omega) (by omega)
      simp only [List.find?, hne]
      exact ih i (by omega) hk (fun j hj hij => hlast j (by omega) hij)

/-- The generator loop is the fold of its per-iteration writes. -/
theorem monthly_data_loop_eq (P : ℚ) (T : Nat) (r : Nat → ℚ) :
    ∀ (fuel i : Nat) (d : List (String × ℚ)),
      monthly_data_loop P T r fuel i d =
        ((List.range' i fuel).map
          (fun j => (dateKey (T - 30 * j), roundTo2 (P * (1 + r j))))).foldl dictInsertPair d := by
  intro fuel
  induction fuel with
  | zero => intro i d; rfl
  | succ m ih =>
    intro i d
    rw [monthly_data_loop, ih, List.range'_succ, List.map_cons, List.foldl_cons]
    rfl

/-- The generated dict is the fold of the spec's write list. -/
theorem monthly_data_eq_foldl (P : ℚ) (T : Nat) (r : Nat → ℚ) :
    monthly_data P T r = (expandWrites P T r).foldl dictInsertPair [] := by
  unfold monthly_data expandWrites
  rw [monthly_data_loop_eq, List.range_eq_range']

/-- Round-half-to-even moves a rational by at most one half. -/
theorem roundHalfEven_sub (q : ℚ) :
    -(1 / 2) ≤ (roundHalfEven q : ℚ) - q ∧ (roundHalfEven q : ℚ) - q ≤ 1 / 2 := by
  have h1 : (⌊q⌋ : ℚ) ≤ q := Int.floor_le q
  have h2 : q < ⌊q⌋ + 1 := Int.lt_floor_add_one q
  unfold roundHalfEven
  dsimp only
  split_ifs with ha hb hc
  · constructor <;> linarith
  · constructor <;> push_cast <;> linarith
  · constructor <;> linarith
  · constructor <;> push_cast <;> linarith

/-- Rounding to 2 decimal places moves a rational by at most 1/200 = 0.005. -/
theorem roundTo2_sub (q : ℚ) :
    -(1 / 200) ≤ roundTo2 q - q ∧ roundTo2 q - q ≤ 1 / 200 := by
  have h := roundHalfEven_sub (q * 100)
  unfold roundTo2
  constructor <;> linarith [h.1, h.2]

/-- Characters 48..57 are digits. -/
theorem charOfDigit_isDigit : ∀ m, m < 10 → (Char.ofNat (48 + m)).isDigit = true := by
  intro m hm
  interval_cases m <;> decide

/-- The digit character of any number is a digit. -/
theorem digitChar_isDigit (n : Nat) : (digitChar n).isDigit = true :=
  charOfDigit_isDigit (n % 10) (Nat.mod_lt n (by omega))

/-- All characters produced by the digit expansion are digits. -/
theorem natCharsAux_isDigit : ∀ (fuel n : Nat), ∀ c ∈ natCharsAux fuel n, c.isDigit = true := by
  intro fuel
  induction fuel with
  | zero => intro n c hc; simp [natCharsAux] at hc
  | succ m ih =>
    intro n c hc
    rw [natCharsAux] at hc
    by_cases hn : n < 10
    · rw [if_pos hn] at hc
      simp at hc
      rw [hc]
      exact digitChar_isDigit n
    · rw [if_neg hn] at hc
      rcases List.mem_append.1 hc with h | h
      · exact ih _ c h
      · simp at h
        rw [h]
        exact digitChar_isDigit (n % 10)

/-- A number below 10^k has at most k digits. -/
theorem natCharsAux_length : ∀ (fuel n k : Nat), n < fuel → n < 10 ^ k → 1 ≤ k →
    (natCharsAux fuel n).length ≤ k := by
  intro fuel
  induction fuel with
  | zero => intro n k h _ _; omega
  | succ m ih =>
    intro n k hf hp hk
    rw [natCharsAux]
    by_cases hn : n < 10
    · rw [if_pos hn]
      simpa using hk
    · rw [if_neg hn]
      rcases k with _ | k2
      · omega
      by_cases hz : k2 = 0
      · subst hz
        rw [pow_one] at hp
        omega
      have hdiv : n / 10 < m := by
        have h1 : n / 10 < n := Nat.div_lt_self (by omega) (by omega)
        omega
      have hp2 : n / 10 < 10 ^ k2 := by
        rw [Nat.div_lt_iff_lt_mul (by omega : 0 < 10)]
        calc n < 10 ^ (k2 + 1) := hp
          _ = 10 ^ k2 * 10 := by rw [pow_succ]
      have hlen := ih (n / 10) k2 hdiv hp2 (by omega)
      simp only [List.length_append, List.length_cons, List.length_nil]
      omega

/-- Digit list of a natural number: all digits. -/
theorem natChars_isDigit (n : Nat) : ∀ c ∈ natChars n, c.isDigit = true :=
  natCharsAux_isDigit (n + 1) n

/-- Digit list of a number below 10^k has length at most k. -/
theorem natChars_length {n k : Nat} (h : n < 10 ^ k) (hk : 1 ≤ k) :
    (natChars n).length ≤ k :=
  natCharsAux_length (n + 1) n k (Nat.lt_succ_self n) h hk

/-- Padding to a width at least the length gives that exact width. -/
theorem padTo_length {w : Nat} {l : List Char} (h : l.length ≤ w) :
    (padTo w l).length = w := by
  simp [padTo]
  omega

/-- Padding a digit list with zeros keeps every character a digit. -/
theorem padTo_isDigit {w : Nat} {l : List Char} (hl : ∀ c ∈ l, c.isDigit = true) :
    ∀ c ∈ padTo w l, c.isDigit = true := by
  intro c hc
  unfold padTo at hc
  rcases List.mem_append.1 hc with h | h
  · rw [List.eq_of_mem_replicate h]
    decide
  · exact hl c h

/-- A list of length 4 has exactly four elements. -/
theorem list_split4 {α : Type} {l : List α} (h : l.length = 4) :
    ∃ a b c d, l = [a, b, c, d] := by
  rcases l with _ | ⟨a, l⟩
  · simp at h
  rcases l with _ | ⟨b, l⟩
  · simp at h
  rcases l with _ | ⟨c, l⟩
  · simp at h
  rcases l with _ | ⟨d, l⟩
  · simp at h
  rcases l with _ | ⟨e, l⟩
  · exact ⟨a, b, c, d, rfl⟩
  · simp at h

/-- A list of length 2 has exactly two elements. -/
theorem list_split2 {α : Type} {l : List α} (h : l.length = 2) :
    ∃ a b, l = [a, b] := by
  rcases l with _ | ⟨a, l⟩
  · simp at h
  rcases l with _ | ⟨b, l⟩
  · simp at h
  rcases l with _ | ⟨c, l⟩
  · exact ⟨a, b, rfl⟩
  · simp at h

/-- The formatted key of a year below 10000 and month below 100 matches the
YYYY-MM pattern. -/
theorem fmtYM_matches (ym : Nat × Nat) (hy : ym.1 < 10000) (hm : ym.2 < 100) :
    matchesYYYYMM (fmtYM ym) = true := by
  obtain ⟨y, m⟩ := ym
  simp only at hy hm
  have e4 : (10 : Nat) ^ 4 = 10000 := by norm_num
  have e2 : (10 : Nat) ^ 2 = 100 := by norm_num
  have hly : (padTo 4 (natChars y)).length = 4 :=
    padTo_length (natChars_length (e4.symm ▸ hy) (by omega))
  have hlm : (padTo 2 (natChars m)).length = 2 :=
    padTo_length (natChars_length (e2.symm ▸ hm) (by omega))
  obtain ⟨a, b, c, d, hab⟩ := list_split4 hly
  obtain ⟨e, f, hef⟩ := list_split2 hlm
  have hdy := padTo_isDigit (w := 4) (natChars_isDigit y)
  have hdm := padTo_isDigit (w := 2) (natChars_isDigit m)
  have ha := hdy a (by rw [hab]; simp)
  have hb := hdy b (by rw [hab]; simp)
  have hc := hdy c (by rw [hab]; simp)
  have hd := hdy d (by rw [hab]; simp)
  have he := hdm e (by rw [hef]; simp)
  have hf := hdm f (by rw [hef]; simp)
  show matchesYYYYMM (String.mk (padTo 4 (natChars y) ++ '-' :: padTo 2 (natChars m))) = true
  rw [hab, hef]
  simp [matchesYYYYMM, String.toList, ha, hb, hc, hd, he, hf]

/-- The date key of a day whose year is below 10000 matches YYYY-MM. -/
theorem dateKey_matches {z : Nat} (hy : (monthOf z).1 < 10000)
    (hm : (monthOf z).2 < 100) : matchesYYYYMM (dateKey z) = true :=
  fmtYM_matches (monthOf z) hy hm

/-- The price parser seen through a computed cleaned text. -/
theorem parse_via_clean (text : String) :
    parsePriceText text =
      (if (cleanedPrice text).contains 'K' = true then
        (pyFloat ((cleanedPrice text).filter (fun c => c != 'K'))).map (fun x => x * 1000)
      else pyFloat (cleanedPrice text)) := rfl

/-- The float model on a successfully parsed shape. -/
theorem pyFloat_parsed {l : List Char} {s : Bool × List Char × List Char}
    (hp : pyFloatParse l = some s) : pyFloat l = some (ratOfParts s) := by
  unfold pyFloat
  rw [hp]
  rfl

/-- Value of an unsigned parsed decimal. -/
theorem ratOfParts_pos (ip fp : List Char) :
    ratOfParts (false, ip, fp) =
      (digitsToNat ip : ℚ) + (digitsToNat fp : ℚ) / 10 ^ fp.length := by
  unfold ratOfParts
  norm_num

/-- Claim C3: against a session failing the awaited condition on every attempt,
navigate_to_city performs exactly 3 attempts and returns false; the failures
are absorbed by its except clause, so nothing propagates. -/
theorem navigate_retry_bound (att : Nat → Bool)
    (h : ∀ i, i < 3 → att i = false) :
    navigate_to_city att = (false, 3) := by
  have h0 := h 0 (by omega)
  have h1 := h 1 (by omega)
  have h2 := h 2 (by omega)
  simp [navigate_to_city, navigate_to_city_loop, h0, h1, h2]

/-- Witness for C3: the constantly failing session. -/
theorem navigate_retry_bound_witness : navigate_to_city allFail = (false, 3) :=
  navigate_retry_bound allFail (fun _ _ => rfl)

/-- Claim C7: when navigation fails, get_median_sale_prices raises the domain
ValueError naming the requested city/state housing-market page and produces no
mapping. -/
theorem nav_failure_raises (env : PageEnv) (state city : String) (anchor : Nat)
    (rand : Nat → ℚ) (h : (navigate_to_city env.navAttempts).1 = false) :
    get_median_sale_prices env state city anchor rand =
      .error (.valueError
        ("Could not navigate to " ++ city ++ ", " ++ state ++ " housing market page.")) ∧
    ∀ m, get_median_sale_prices env state city anchor rand ≠ .ok m := by
  constructor
  · unfold get_median_sale_prices
    rw [if_pos h]
  · intro m hm
    unfold get_median_sale_prices at hm
    rw [if_pos h] at hm
    exact Except.noConfusion hm

/-- Witness for C7 at a concretely failing environment. -/
theorem nav_failure_raises_witness :
    get_median_sale_prices envNavFail "TX" "Austin" anchorMid zeroRand =
      .error (.valueError "Could not navigate to Austin, TX housing market page.") :=
  (nav_failure_raises envNavFail "TX" "Austin" anchorMid zeroRand rfl).1

/-- Claim C9: median_prices.json is written, with json indent 2, exactly when
the whole run succeeds; any raised failure reaches main's except clause and
nothing is written. -/
theorem file_write_iff_success (env : PageEnv) (state city : String)
    (anchor : Nat) (rand : Nat → ℚ) :
    (∀ p, (main_run env state city anchor rand).fileWrite =
        some ("median_prices.json", p, 2) ↔
        get_median_sale_prices env state city anchor rand = .ok p) ∧
    (∀ e, get_median_sale_prices env state city anchor rand = .error e →
        (main_run env state city anchor rand).fileWrite = none) := by
  constructor
  · intro p
    unfold main_run
    cases hg : get_median_sale_prices env state city anchor rand with
    | ok q => simp
    | error e => simp
  · intro e he
    unfold main_run
    rw [he]

/-- Witness for C9: a run whose navigation fails writes no file. -/
theorem file_write_iff_success_witness :
    (main_run envNavFail "TX" "Austin" anchorMid zeroRand).fileWrite = none :=
  (file_write_iff_success envNavFail "TX" "Austin" anchorMid zeroRand).2
    (.valueError ("Could not navigate to " ++ "Austin" ++ ", " ++ "TX" ++
      " housing market page."))
    rfl

/-- Claim C8 (code bug): on every outcome of a run whose setup succeeded, the
code invokes driver.quit() twice, once in main's finally block and once more in
RedfinScraper.__del__ at finalization, because the driver attribute is never
cleared; the spec's teardown guarantee asks for exactly once. -/
theorem quit_invoked_twice : ∀ o : RunOutcome, processQuitCalls o = 2 := by
  intro o
  cases o <;> rfl

/-- Claim C2: the price parser maps "$450K" to 450000 and "$875,250" to
875250, fails on "N/A", and in general a cleaned text containing the marker K
parses as the K-stripped remainder times 1000. -/
theorem price_parsing :
    parsePriceText "$450K" = some 450000 ∧
    parsePriceText "$875,250" = some 875250 ∧
    parsePriceText "N/A" = none ∧
    ∀ text, (cleanedPrice text).contains 'K' = true →
      parsePriceText text =
        (pyFloat ((cleanedPrice text).filter (fun c => c != 'K'))).map
          (fun x => x * 1000) := by
  refine ⟨?_, ?_, ?_, ?_⟩
  · have hc : cleanedPrice "$450K" = ['4', '5', '0', 'K'] := by decide
    rw [parse_via_clean, hc, if_pos (by decide),
      (by decide : ['4', '5', '0', 'K'].filter (fun c => c != 'K') = ['4', '5', '0']),
      pyFloat_parsed (by decide : pyFloatParse ['4', '5', '0'] = some (false, ['4', '5', '0'], []))]
    show some (ratOfParts (false, ['4', '5', '0'], []) * 1000) = some 450000
    rw [ratOfParts_pos, (by decide : digitsToNat ['4', '5', '0'] = 450),
      (by decide : digitsToNat [] = 0)]
    norm_num
  · have hc : cleanedPrice "$875,250" = ['8', '7', '5', '2', '5', '0'] := by decide
    rw [parse_via_clean, hc, if_neg (by decide),
      pyFloat_parsed (by decide :
        pyFloatParse ['8', '7', '5', '2', '5', '0'] =
          some (false, ['8', '7', '5', '2', '5', '0'], []))]
    show some (ratOfParts (false, ['8', '7', '5', '2', '5', '0'], [])) = some 875250
    rw [ratOfParts_pos, (by decide : digitsToNat ['8', '7', '5', '2', '5', '0'] = 875250),
      (by decide : digitsToNat [] = 0)]
    norm_num
  · have hc : cleanedPrice "N/A" = ['N', '/', 'A'] := by decide
    rw [parse_via_clean, hc, if_neg (by decide)]
    unfold pyFloat
    rw [(by decide : pyFloatParse ['N', '/', 'A'] = none)]
    rfl
  · intro text h
    rw [parse_via_clean, if_pos h]

/-- Witness for C2: the K branch exercised at a concrete input. -/
theorem price_parsing_witness :
    parsePriceText "$2K" =
      (pyFloat ((cleanedPrice "$2K").filter (fun c => c != 'K'))).map
        (fun x => x * 1000) :=
  price_parsing.2.2.2 "$2K" (by decide)

/-- Claim C10: the K check succeeds for a 'K' anywhere in the cleaned text,
every 'K' is removed and the remainder multiplied by 1000, so non-trailing
markers as in "K450" or "4K50" are accepted, not rejected. -/
theorem k_marker_anywhere :
    (∀ text, (cleanedPrice text).contains 'K' = true →
      parsePriceText text =
        (pyFloat ((cleanedPrice text).filter (fun c => c != 'K'))).map
          (fun x => x * 1000)) ∧
    parsePriceText "K450" = some 450000 ∧
    parsePriceText "4K50" = some 450000 := by
  refine ⟨?_, ?_, ?_⟩
  · intro text h
    rw [parse_via_clean, if_pos h]
  · have hc : cleanedPrice "K450" = ['K', '4', '5', '0'] := by decide
    rw [parse_via_clean, hc, if_pos (by decide),
      (by decide : ['K', '4', '5', '0'].filter (fun c => c != 'K') = ['4', '5', '0']),
      pyFloat_parsed (by decide : pyFloatParse ['4', '5', '0'] = some (false, ['4', '5', '0'], []))]
    show some (ratOfParts (false, ['4', '5', '0'], []) * 1000) = some 450000
    rw [ratOfParts_pos, (by decide : digitsToNat ['4', '5', '0'] = 450),
      (by decide : digitsToNat [] = 0)]
    norm_num
  · have hc : cleanedPrice "4K50" = ['4', 'K', '5', '0'] := by decide
    rw [parse_via_clean, hc, if_pos (by decide),
      (by decide : ['4', 'K', '5', '0'].filter (fun c => c != 'K') = ['4', '5', '0']),
      pyFloat_parsed (by decide : pyFloatParse ['4', '5', '0'] = some (false, ['4', '5', '0'], []))]
    show some (ratOfParts (false, ['4', '5', '0'], []) * 1000) = some 450000
    rw [ratOfParts_pos, (by decide : digitsToNat ['4', '5', '0'] = 450),
      (by decide : digitsToNat [] = 0)]
    norm_num

/-- Witness for C10: the general K rule at a concrete input. -/
theorem k_marker_anywhere_witness :
    parsePriceText "9K9" =
      (pyFloat ((cleanedPrice "9K9").filter (fun c => c != 'K'))).map
        (fun x => x * 1000) :=
  k_marker_anywhere.1 "9K9" (by decide)

/-- Claim C5: iteration i computes the candidate date anchor minus 30*i days,
formats it as YYYY-MM, perturbs the anchor price by the i-th draw, rounds to 2
decimal places, and stores under that key: the loop is the fold of exactly
those 36 writes. -/
theorem generator_iteration (P : ℚ) (T : Nat) (r : Nat → ℚ) :
    monthly_data P T r = (expandWrites P T r).foldl dictInsertPair [] ∧
    ∀ i, i < 36 → (expandWrites P T r)[i]? =
      some (dateKey (T - 30 * i), roundTo2 (P * (1 + r i))) := by
  refine ⟨monthly_data_eq_foldl P T r, ?_⟩
  intro i hi
  unfold expandWrites
  rw [List.getElem?_map, List.getElem?_range hi]
  rfl

/-- Witness for C5 at concrete arguments. -/
theorem generator_iteration_witness :
    monthly_data 12 anchorMid zeroRand =
      (expandWrites 12 anchorMid zeroRand).foldl dictInsertPair [] ∧
    (expandWrites 12 anchorMid zeroRand)[5]? =
      some (dateKey (anchorMid - 30 * 5), roundTo2 (12 * (1 + zeroRand 5))) :=
  ⟨(generator_iteration 12 anchorMid zeroRand).1,
   (generator_iteration 12 anchorMid zeroRand).2 5 (by omega)⟩

/-- Claim C6: when iterations collide on a formatted key, the mapping retains
the value of the latest iteration writing it. -/
theorem last_write_wins (P : ℚ) (T : Nat) (r : Nat → ℚ) (i : Nat) (k : String)
    (hi : i < 36) (hk : dateKey (T - 30 * i) = k)
    (hlast : ∀ j, j < 36 → i < j → dateKey (T - 30 * j) ≠ k) :
    dictLookup (monthly_data P T r) k = some (roundTo2 (P * (1 + r i))) := by
  rw [monthly_data_eq_foldl, dictLookup_foldl]
  unfold expandWrites
  rw [find_last_write (fun j => (dateKey (T - 30 * j), roundTo2 (P * (1 + r j)))) k
    36 i hi hk hlast]

/-- Witness for C6: at the 2024-03-31 anchor, iterations 0 and 1 both produce
the key 2024-03 and the retained value is iteration 1's. -/
theorem last_write_wins_witness :
    dictLookup (monthly_data 7 anchorDup dupRand) "2024-03" =
      some (roundTo2 (7 * (1 + dupRand 1))) :=
  last_write_wins 7 anchorDup dupRand 1 "2024-03" (by omega) (by decide) (by decide)

/-- Counterexample to claim C1 as stated: at the anchor 2024-03-31 with price
500000 and zero draws the generated mapping has pairwise distinct keys yet
fewer than 36 of them, so it does not contain exactly 36 distinct keys. -/
theorem series_keys_counterexample :
    ((monthly_data 500000 anchorDup zeroRand).map Prod.fst).Nodup ∧
    (monthly_data 500000 anchorDup zeroRand).length ≠ 36 := by
  constructor
  · decide
  · decide

/-- Claim C1 amended: the mapping's keys are exactly the distinct YYYY-MM
strings of the 36 step dates: pairwise distinct, at most 36, each matching the
pattern and named by some step, and each step's key present; when two steps
share a month there are fewer than 36. -/
theorem series_keys (P : ℚ) (T : Nat) (r : Nat → ℚ)
    (hy : ∀ i, i < 36 → (monthOf (T - 30 * i)).1 < 10000)
    (hm : ∀ i, i < 36 → (monthOf (T - 30 * i)).2 < 100) :
    (monthly_data P T r).length ≤ 36 ∧
    ((monthly_data P T r).map Prod.fst).Nodup ∧
    (∀ kv ∈ monthly_data P T r,
      matchesYYYYMM kv.1 = true ∧ ∃ i, i < 36 ∧ kv.1 = dateKey (T - 30 * i)) ∧
    (∀ i, i < 36 → ∃ kv ∈ monthly_data P T r, kv.1 = dateKey (T - 30 * i)) := by
  rw [monthly_data_eq_foldl]
  refine ⟨?_, ?_, ?_, ?_⟩
  · have h := length_foldl_dictInsert (expandWrites P T r) []
    have hw : (expandWrites P T r).length = 36 := by
      unfold expandWrites
      simp
    simp only [List.length_nil, Nat.zero_add] at h
    omega
  · exact nodupKeys_foldl_dictInsert _ [] (by simp)
  · intro kv hkv
    rcases mem_foldl_dictInsert hkv with h | h
    · cases h
    · unfold expandWrites at h
      rcases List.mem_map.1 h with ⟨i, hi, he⟩
      have hi36 : i < 36 := List.mem_range.1 hi
      subst he
      exact ⟨dateKey_matches (hy i hi36) (hm i hi36), i, hi36, rfl⟩
  · intro i hi
    have hw : (dateKey (T - 30 * i), roundTo2 (P * (1 + r i))) ∈ expandWrites P T r := by
      unfold expandWrites
      exact List.mem_map.2 ⟨i, List.mem_range.2 hi, rfl⟩
    exact writtenKey_present (expandWrites P T r) [] _ hw

/-- Witness for C1's amended statement at a year-bounded concrete anchor. -/
theorem series_keys_witness :
    (monthly_data 500000 anchorMid zeroRand).length ≤ 36 :=
  (series_keys 500000 anchorMid zeroRand (by decide) (by decide)).1

/-- Counterexample to claim C4 as stated: with anchor price 1/4 and every draw
1/50 = 0.02 (inside [-0.02, 0.02]), the generator stores the rounded value
0.26 = 13/50, which exceeds 1.02 * (1/4) = 0.255: the 2-decimal rounding
escapes the claimed interval. -/
theorem bounded_values_counterexample :
    (0 : ℚ) < 1 / 4 ∧
    (dateKey (anchorMid - 30 * 0), (13 : ℚ) / 50) ∈
      monthly_data (1 / 4) anchorMid fiftiethRand ∧
    ¬ ((13 : ℚ) / 50 ≤ 1 / 4 * (102 / 100)) := by
  refine ⟨by norm_num, ?_, by norm_num⟩
  with_unfolding_all decide

/-- Claim C4 amended: for a positive anchor price and draws within
[-0.02, 0.02], every stored value lies in the perturbation interval widened by
half a rounding step: [0.98 P - 0.005, 1.02 P + 0.005]. -/
theorem bounded_values (P : ℚ) (T : Nat) (r : Nat → ℚ) (hP : 0 < P)
    (hr : ∀ i, -(1 / 50) ≤ r i ∧ r i ≤ 1 / 50) :
    ∀ kv ∈ monthly_data P T r,
      P * (98 / 100) - 1 / 200 ≤ kv.2 ∧ kv.2 ≤ P * (102 / 100) + 1 / 200 := by
  intro kv hkv
  rw [monthly_data_eq_foldl] at hkv
  rcases mem_foldl_dictInsert hkv with h | h
  · cases h
  · unfold expandWrites at h
    rcases List.mem_map.1 h with ⟨i, _, he⟩
    have hv : kv.2 = roundTo2 (P * (1 + r i)) := by rw [← he]
    have hb := roundTo2_sub (P * (1 + r i))
    have hri := hr i
    have h1 : 0 ≤ P * (r i + 1 / 50) := mul_nonneg hP.le (by linarith [hri.1])
    have h2 : 0 ≤ P * (1 / 50 - r i) := mul_nonneg hP.le (by linarith [hri.2])
    have e1 : P * (1 + r i) = P * (98 / 100) + P * (r i + 1 / 50) := by ring
    have e2 : P * (102 / 100) = P * (1 + r i) + P * (1 / 50 - r i) := by ring
    rw [hv]
    constructor <;> linarith [hb.1, hb.2]

/-- Witness for C4's amended statement at price 1 and zero draws. -/
theorem bounded_values_witness :
    1 * (98 / 100) - 1 / 200 ≤ roundTo2 ((1 : ℚ) * (1 + zeroRand 0)) ∧
    roundTo2 ((1 : ℚ) * (1 + zeroRand 0)) ≤ 1 * (102 / 100) + 1 / 200 :=
  bounded_values 1 anchorMid zeroRand (by norm_num)
    (fun _ => ⟨by norm_num [zeroRand], by norm_num [zeroRand]⟩)
    (dateKey (anchorMid - 30 * 0), roundTo2 ((1 : ℚ) * (1 + zeroRand 0)))
    (by with_unfolding_all decide)
